/-
Verification of the arx reverse-proxy gateway against its specification.

The Rust sources are shallowly embedded as Lean definitions:
  - HTTP header maps become association lists of (lowercased name, value)
    pairs, in insertion order; HeaderMap::insert replaces every value stored
    under the name, HeaderMap::get returns the first value.
  - Fallible Rust functions returning Result become Except.
  - The opaque identity-service call (authly_client get_access_token) is a
    function parameter of type String to Except Unit String, as the spec
    treats the exchange as an opaque call.
Character-level validity checks of the http crate (HeaderValue::from_str,
PathAndQuery parsing, Uri::from_str) accept every character here; the
structural behaviour (splitting, assembly, error propagation) is modelled
faithfully.
-/
import Mathlib

/-- Header map model: association list of (name, value) pairs in order.
Names are the lowercase canonical forms used by the http crate. -/
abbrev HeaderMap := List (String × String)

/-- Model of HeaderMap::get: the first value stored under the name. -/
def getFirst : HeaderMap → String → Option String
  | [], _ => none
  | p :: t, k => if p.1 = k then some p.2 else getFirst t k

/-- Model of HeaderMap::contains_key. -/
def containsKey : HeaderMap → String → Bool
  | [], _ => false
  | p :: t, k => p.1 = k || containsKey t k

/-- Removal of every value stored under a name (HeaderMap::remove drops them all). -/
def removeKey : HeaderMap → String → HeaderMap
  | [], _ => []
  | p :: t, k => if p.1 = k then removeKey t k else p :: removeKey t k

/-- Model of HeaderMap::insert: drop all previous values under the name and
store the new one. The position of the entry in the association list is not
observable through getFirst / containsKey. -/
def insertHeader (hs : HeaderMap) (k v : String) : HeaderMap :=
  removeKey hs k ++ [(k, v)]

/-- Model of HeaderMap::get_all: every value stored under the name, in order. -/
def getAllVals : HeaderMap → String → List String
  | [], _ => []
  | p :: t, k => if p.1 = k then p.2 :: getAllVals t k else getAllVals t k

/-- Model of str::split_once at a character: split at the first occurrence,
none when the character does not occur. Defined on the character list. -/
def splitOnceAux (c : Char) : List Char → Option (List Char × List Char)
  | [] => none
  | x :: xs =>
    if x = c then some ([], xs)
    else (splitOnceAux c xs).map (fun p => (x :: p.1, p.2))

/-- Model of str::split_once on strings. -/
def splitOnce (s : String) (c : Char) : Option (String × String) :=
  (splitOnceAux c s.data).map (fun p => (⟨p.1⟩, ⟨p.2⟩))

/-- Model of str::split at a character, as a structural recursion on the
character list; splitting the empty string yields one empty piece, matching
the Rust iterator. -/
def splitChar (c : Char) : List Char → List (List Char)
  | [] => [[]]
  | x :: xs =>
    if x = c then [] :: splitChar c xs
    else
      match splitChar c xs with
      | [] => [[x]]
      | h :: t => (x :: h) :: t

/-- Model of str::trim: drop whitespace from both ends. -/
def trimChars (l : List Char) : List Char :=
  ((l.dropWhile Char.isWhitespace).reverse.dropWhile Char.isWhitespace).reverse

/-- Model of cookie::Cookie::parse as used by the cookie_jar function in
authentication.rs: split the pair at the first '=', trim name and value,
reject a missing '=' and an empty name. -/
def parseCookie (s : String) : Option (String × String) :=
  match splitOnceAux '=' s.data with
  | none => none
  | some (n, v) =>
    let n := trimChars n
    let v := trimChars v
    if n = [] then none else some (⟨n⟩, ⟨v⟩)

/-- Cookie pairs collected by cookie_jar in authentication.rs: every Cookie
header value, split on ';', each piece parsed, parse failures skipped. -/
def cookiePairs (hs : HeaderMap) : List (String × String) :=
  ((getAllVals hs "cookie").flatMap
    (fun v => (splitChar ';' v.data).map (fun l => (⟨l⟩ : String)))).filterMap
    parseCookie

/-- Lookup in the cookie jar built by add_original calls: a later cookie with
the same name replaces an earlier one, so the last parsed pair wins. -/
def jarGet (hs : HeaderMap) (name : String) : Option String :=
  ((cookiePairs hs).reverse.find? (fun p => p.1 == name)).map (·.2)

/-- Model of cookie::Cookie::value_trimmed: strip one surrounding pair of
double quotes when both ends carry one, then trim whitespace. -/
def valueTrimmed (v : String) : String :=
  let t : List Char :=
    if v.data.length ≥ 2 ∧ v.data.head? = some '"' ∧ v.data.getLast? = some '"'
    then (v.data.drop 1).dropLast else v.data
  ⟨trimChars t⟩

/-- Error type of the gateway crate (lib.rs); Internal carries an opaque payload. -/
inductive ArxError where
  | NotAuthenticated
  | Internal
deriving DecidableEq, Repr

/-- Auth directive enumeration from route.rs. -/
inductive AuthDirective where
  | Mandatory
  | Opportunistic
  | Disabled
deriving DecidableEq, Repr

/-- Identity client model: the opaque get_access_token call, from a session
cookie value to a bearer token or an error. -/
abbrev AuthlyClient := String → Except Unit String

/-- Model of inject_access_token in authentication.rs: exchange the trimmed
session-cookie value; on error return NotAuthenticated, on success insert the
Authorization header with the value the source formats (note the source
writes the string Bearer-colon-space before the token). -/
def injectAccessToken (hs : HeaderMap) (sessionCookieValue : String)
    (client : AuthlyClient) : Except ArxError HeaderMap :=
  match client (valueTrimmed sessionCookieValue) with
  | .error _ => .error .NotAuthenticated
  | .ok token => .ok (insertHeader hs "authorization" ("Bearer: " ++ token))

/-- Model of process_auth_directive in authentication.rs. -/
def processAuthDirective (d : AuthDirective) (hs : HeaderMap)
    (client : Option AuthlyClient) : Except ArxError HeaderMap :=
  match d, client with
  | .Mandatory, some c =>
    match jarGet hs "session-cookie" with
    | none => .error .NotAuthenticated
    | some v => injectAccessToken hs v c
  | .Mandatory, none => .error .NotAuthenticated
  | .Opportunistic, some c =>
    match jarGet hs "session-cookie" with
    | none => .ok hs
    | some v => injectAccessToken hs v c
  | .Opportunistic, none => .ok hs
  | .Disabled, _ => .ok hs

/-- Boolean error test for Except values. -/
def exceptIsErr {ε α : Type} : Except ε α → Bool
  | .error _ => true
  | .ok _ => false

/-- Shallow model of http::Uri as its Parts: optional scheme, optional
authority, optional path-and-query. -/
structure PathQuery where
  path : String
  query : Option String
deriving DecidableEq, Repr

/-- Uri parts record; see PathQuery. -/
structure Uri where
  scheme : Option String
  authority : Option String
  pathQuery : Option PathQuery
deriving DecidableEq, Repr

/-- Error model for the HttpError enum of hyper.rs; the status code is a Nat
and the message a String (Static and Dynamic collapse to the same shape). -/
inductive HttpError where
  | Static (status : Nat) (msg : String)
  | Dynamic (status : Nat) (msg : String)
deriving DecidableEq, Repr

/-- Split of a character list at the first '?', yielding the path characters
and, when a '?' occurs, the characters after it. -/
def splitQ : List Char → List Char × Option (List Char)
  | [] => ([], none)
  | c :: cs =>
    if c = '?' then ([], some cs)
    else
      let r := splitQ cs
      (c :: r.1, r.2)

/-- Model of http::uri::PathAndQuery parsing: the string splits at the first
'?' into path and query. Character-level validity checks of the http crate
are abstracted away (they accept every input arising in this development). -/
def parsePathAndQuery (s : String) : Option PathQuery :=
  let r := splitQ s.data
  some ⟨⟨r.1⟩, r.2.map (fun l => (⟨l⟩ : String))⟩

/-- Model of http::Uri::from_parts: a scheme requires an authority and a
path-and-query; an authority together with a path-and-query requires a
scheme. -/
def uriFromParts (p : Uri) : Except HttpError Uri :=
  if p.scheme.isSome then
    if p.authority.isNone then .error (.Static 500 "invalid uri")
    else if p.pathQuery.isNone then .error (.Static 500 "invalid uri")
    else .ok p
  else if p.authority.isSome ∧ p.pathQuery.isSome then
    .error (.Static 500 "invalid uri")
  else .ok p

/-- Model of rewrite_proxied_uri in gateway.rs. The matchit path capture is
the rewritePath argument; replacePfx models the replace_prefix option of the
Proxy descriptor. -/
def rewriteProxiedUri (original : Uri) (targetUri : Option Uri)
    (rewritePath : Option String) (replacePfx : Option String) :
    Except HttpError Uri :=
  let parts :=
    match targetUri with
    | some t => { original with scheme := t.scheme, authority := t.authority }
    | none => original
  match replacePfx with
  | none => uriFromParts parts
  | some rp =>
    let query := parts.pathQuery.bind PathQuery.query
    let newPathQuery :=
      rp ++ (match rewritePath with | some p => p | none => "")
        ++ (match query with | some q => "?" ++ q | none => "")
    match parsePathAndQuery newPathQuery with
    | none => .error (.Static 500 "uri problem")
    | some pq => uriFromParts { parts with pathQuery := some pq }

/-- Model of str::strip_suffix: remove the suffix when present. -/
def stripSuffixStr (s suffix : String) : Option String :=
  if suffix.data.isSuffixOf s.data
  then some ⟨s.data.take (s.data.length - suffix.data.length)⟩
  else none

/-- Statement of set_proxy_headers writing x-forwarded-proto: the source
always uses the static value http (a FIXME notes native HTTPS is pending). -/
def protoStage (hs : HeaderMap) : HeaderMap :=
  if ¬ containsKey hs "x-forwarded-proto"
  then insertHeader hs "x-forwarded-proto" "http" else hs

/-- Statement of set_proxy_headers writing x-forwarded-host from the split
Host header, only when not already present. -/
def hostStage (hostPort : Option (String × String)) (hs : HeaderMap) :
    HeaderMap :=
  if ¬ containsKey hs "x-forwarded-host" then
    match hostPort with
    | some (h, _) => insertHeader hs "x-forwarded-host" h
    | none => hs
  else hs

/-- Statement of set_proxy_headers writing x-forwarded-port from the split
Host header, only when not already present. -/
def portStage (hostPort : Option (String × String)) (hs : HeaderMap) :
    HeaderMap :=
  if ¬ containsKey hs "x-forwarded-port" then
    match hostPort with
    | some (_, p) => insertHeader hs "x-forwarded-port" p
    | none => hs
  else hs

/-- Statement of set_proxy_headers writing x-forwarded-prefix when a
stripped prefix exists, appending it to any previous value. -/
def pfxStage (pfx : Option String) (hs : HeaderMap) : HeaderMap :=
  match pfx with
  | some pfx =>
    let newPfx :=
      match getFirst hs "x-forwarded-prefix" with
      | some prev => prev ++ pfx
      | none => pfx
    insertHeader hs "x-forwarded-prefix" newPfx
  | none => hs

/-- Model of set_proxy_headers in headers.rs, as the sequence of its
statements: compute the stripped prefix, remove the Host header and split it
at ':', then run the four header-writing statements in source order. The
request is represented by its header map and the path of its (already
rewritten) URI; originalPath is the path of the pre-rewrite URI.
HeaderValue::from_str validity checks are abstracted away (every value
arising here is a valid header value). -/
def setProxyHeaders (hs : HeaderMap) (originalPath rewrittenPath : String) :
    HeaderMap :=
  let pfx := stripSuffixStr originalPath rewrittenPath
  let hostHeader := getFirst hs "host"
  let hs := removeKey hs "host"
  let hostPort := hostHeader.bind (fun h => splitOnce h ':')
  pfxStage pfx (portStage hostPort (hostStage hostPort (protoStage hs)))

/-- Compression configuration slice of ArxConfig used by the predicate. -/
structure CompressionCfg where
  minSize : Nat
  compressImages : Bool
  exemptContentTypes : List String
deriving Repr

/-- Response shape observed by the compression predicate: the Content-Type
header value (when present and readable), the exact body size hint (when
known), and the Content-Length header value (when present and readable). -/
structure CompressionResponse where
  contentType : Option String
  sizeHint : Option Nat
  contentLength : Option String
deriving Repr

/-- Content type extraction: header value or empty string. -/
def responseContentType (r : CompressionResponse) : String :=
  r.contentType.getD ""

/-- Content size extraction: the exact size hint, or else the parsed
Content-Length header. Parsing models str::parse::<u64> as String.toNat?. -/
def responseContentSize (r : CompressionResponse) : Option Nat :=
  match r.sizeHint with
  | some n => some n
  | none => r.contentLength.bind String.toNat?

/-- Model of CompressionPredicate::should_compress in
layers/http_compression.rs, with its three early-return checks. -/
def shouldCompress (cfg : CompressionCfg) (r : CompressionResponse) : Bool :=
  let ct := responseContentType r
  let size := responseContentSize r
  if cfg.exemptContentTypes.any (fun t => t == ct) then false
  else if ct ≠ "image/svg+xml" ∧ ct.startsWith "image/" ∧ ¬ cfg.compressImages
  then false
  else
    match size with
    | some s => if s < cfg.minSize then false else true
    | none => true

/-- Message from the client (front) socket, as tungstenite delivers it. The
close payload is an optional frame of code and reason; other covers ping,
pong and raw frames, which the tunnel ignores. -/
inductive FrontMsg where
  | text (s : String)
  | binary (b : List Nat)
  | close (frame : Option (Nat × String))
  | other
deriving DecidableEq, Repr

/-- Message from the backend (back) socket, as reqwest_websocket delivers
it; its close variant always carries a code and a reason. -/
inductive BackMsg where
  | text (s : String)
  | binary (b : List Nat)
  | ping
  | pong
  | close (code : Nat) (reason : String)
deriving DecidableEq, Repr

/-- One delivery observed by the tunnel select loop: a message, a read error
or end-of-stream (none), on either side. The interleaving chosen by the
scheduler is the order of the event list. -/
inductive WsEvent where
  | fromFront (m : Option (Except Unit FrontMsg))
  | fromBack (m : Option (Except Unit BackMsg))

/-- Result of running the tunnel loop of ws_tunnel in reverse_proxy.rs on a
list of events: the data messages forwarded to each side, and the closes
issued after the loop breaks. frontClose is the argument of
front_socket.close (outer none while the loop still runs); backClose is the
code and optional reason given to back_socket.close. -/
structure TunnelResult where
  toBack : List BackMsg
  toFront : List FrontMsg
  frontClose : Option (Option (Nat × String))
  backClose : Option (Nat × Option String)
deriving Repr

/-- Model of the ws_tunnel loop in reverse_proxy.rs. Every break of the Rust
loop produces front_socket.close(None) and back_socket.close(code, reason)
with the break value; read errors are logged and the loop continues. -/
def wsTunnel : List WsEvent → TunnelResult
  | [] => ⟨[], [], none, none⟩
  | e :: rest =>
    match e with
    | .fromFront none => ⟨[], [], some none, some (1000, none)⟩
    | .fromFront (some (.ok (.text s))) =>
      let r := wsTunnel rest
      { r with toBack := .text s :: r.toBack }
    | .fromFront (some (.ok (.binary b))) =>
      let r := wsTunnel rest
      { r with toBack := .binary b :: r.toBack }
    | .fromFront (some (.ok (.close (some f)))) =>
      ⟨[], [], some none, some (f.1, some f.2)⟩
    | .fromFront (some (.ok (.close none))) =>
      ⟨[], [], some none, some (1000, none)⟩
    | .fromFront (some (.ok .other)) => wsTunnel rest
    | .fromFront (some (.error _)) => wsTunnel rest
    | .fromBack none => ⟨[], [], some none, some (1000, none)⟩
    | .fromBack (some (.ok (.text s))) =>
      let r := wsTunnel rest
      { r with toFront := .text s :: r.toFront }
    | .fromBack (some (.ok (.binary b))) =>
      let r := wsTunnel rest
      { r with toFront := .binary b :: r.toFront }
    | .fromBack (some (.ok .ping)) => wsTunnel rest
    | .fromBack (some (.ok .pong)) => wsTunnel rest
    | .fromBack (some (.ok (.close _ _))) =>
      ⟨[], [], some none, some (1000, none)⟩
    | .fromBack (some (.error _)) => wsTunnel rest

/-- Event test: the deliveries on which the tunnel loop breaks, namely
end-of-stream on either side or a close frame on either side. -/
def wsTerminates : WsEvent → Bool
  | .fromFront none => true
  | .fromFront (some (.ok (.close _))) => true
  | .fromBack none => true
  | .fromBack (some (.ok (.close _ _))) => true
  | _ => false

/-- Backend class enumeration from route.rs. -/
inductive BackendClass where
  | Plain
  | AuthlyMesh
deriving DecidableEq, Repr

/-- Proxy descriptor from route.rs. The auth_directive_fn stored by
try_add_http_route is always a constant function, so it is embedded as the
directive it returns. replacePfx models the replace_prefix field. -/
structure ProxyDesc where
  backendUri : Uri
  backendClass : BackendClass
  replacePfx : Option String
  authDirective : AuthDirective
deriving DecidableEq, Repr

/-- Constructor model of Proxy::from_backend_uri in route.rs. -/
def ProxyDesc.fromBackendUri (u : Uri) : ProxyDesc :=
  ⟨u, .Plain, none, .Disabled⟩

/-- Builder model of Proxy::with_backend_class. -/
def ProxyDesc.withBackendClass (p : ProxyDesc) (c : BackendClass) : ProxyDesc :=
  { p with backendClass := c }

/-- Builder model of Proxy::with_replace_prefix. -/
def ProxyDesc.withReplacePfx (p : ProxyDesc) (r : String) : ProxyDesc :=
  { p with replacePfx := some r }

/-- Builder model of Proxy::with_auth_directive_fn at a constant directive. -/
def ProxyDesc.withAuthDirective (p : ProxyDesc) (d : AuthDirective) : ProxyDesc :=
  { p with authDirective := d }

/-- Route descriptor from route.rs. Local handlers carry opaque state that no
compiled k8s route produces, so the Local case is a bare constructor; the
redirect URI is kept as its string form (Uri parsing of the redirect target
is abstracted away). -/
inductive Route where
  | Proxy (p : ProxyDesc)
  | Local
  | TemporaryRedirect (uri : String)
deriving DecidableEq, Repr

/-- Route table model: the matchit router keyed by its registered path
patterns, as an association list in insertion order. -/
abbrev RTable := List (String × Route)

/-- Lookup of the route registered under a pattern. -/
def RTable.lookupPat : RTable → String → Option Route
  | [], _ => none
  | p :: t, k => if p.1 = k then some p.2 else RTable.lookupPat t k

/-- Model of try_insert_route in k8s_routing.rs: an insert into an occupied
pattern is dropped with an info log. -/
def tryInsertRoute (output : RTable) (path : String) (r : Route) : RTable :=
  if (output.lookupPat path).isSome then output else output ++ [(path, r)]

/-- Extension reference of a gateway-api filter (group and name). -/
structure ExtRef where
  group : String
  name : String
deriving DecidableEq, Repr

/-- Path slice of a gateway-api URLRewrite filter. -/
structure UrlRewritePath where
  replacePfxMatch : Option String
deriving DecidableEq, Repr

/-- URLRewrite filter payload. -/
structure UrlRewrite where
  path : Option UrlRewritePath
deriving DecidableEq, Repr

/-- Gateway-api filter: the two members try_add_http_route reads. -/
structure RouteFilter where
  extensionRef : Option ExtRef
  urlRewrite : Option UrlRewrite
deriving DecidableEq, Repr

/-- Path match type of a gateway-api HTTPRoute match. -/
inductive HTTPPathType where
  | Exact
  | PathPrefix
  | RegularExpression
deriving DecidableEq, Repr

/-- Path member of a gateway-api HTTPRoute match. -/
structure PathMatch where
  type : Option HTTPPathType
  value : Option String
deriving DecidableEq, Repr

/-- One match of a gateway-api HTTPRoute rule; method and query-param
matches are unsupported and only logged, so they are presence flags. -/
structure HTTPRouteMatch where
  path : Option PathMatch
  methodPresent : Bool
  queryParamsPresent : Bool
deriving DecidableEq, Repr

/-- Backend reference of a gateway-api HTTPRoute rule. -/
structure BackendRef where
  name : String
  port : Option Nat
  filters : Option (List RouteFilter)
deriving DecidableEq, Repr

/-- One rule of a gateway-api HTTPRoute. The first member models the rule's
matches list. -/
structure HTTPRule where
  ruleMatches : Option (List HTTPRouteMatch)
  filters : Option (List RouteFilter)
  backendRefs : Option (List BackendRef)
deriving DecidableEq, Repr

/-- Spec of a gateway-api HTTPRoute (the members try_add_http_route reads). -/
structure HTTPRouteSpec where
  hostnames : Option (List String)
  rules : Option (List HTTPRule)
deriving DecidableEq, Repr

/-- One step of the backend-ref filter scan in try_add_http_route: an
extension ref with group authly.id and name mesh selects the AuthlyMesh
class; any other authly.id name only warns. -/
def backendFilterStep (acc : BackendClass) (f : RouteFilter) : BackendClass :=
  match f.extensionRef with
  | some ext =>
    if ext.group = "authly.id" then
      if ext.name = "mesh" then .AuthlyMesh else acc
    else acc
  | none => acc

/-- Scan of the backend-ref filters in try_add_http_route. -/
def backendFiltersClass (filters : Option (List RouteFilter)) : BackendClass :=
  match filters with
  | none => .Plain
  | some fs => fs.foldl backendFilterStep .Plain

/-- Scan of the rule filters in try_add_http_route, performed once per match:
the last URLRewrite filter wins, and authly.id extension refs select the auth
directive by name (authn and authn-mandatory give Mandatory,
authn-opportunistic Opportunistic, authn-disabled Disabled; unknown names
warn and leave the directive unchanged). -/
def scanRuleFilters (filters : Option (List RouteFilter)) :
    Option UrlRewrite × AuthDirective :=
  match filters with
  | none => (none, .Disabled)
  | some fs =>
    fs.foldl
      (fun acc f =>
        let acc :=
          match f.urlRewrite with
          | some rw => (some rw, acc.2)
          | none => acc
        match f.extensionRef with
        | some ext =>
          if ext.group = "authly.id" then
            if ext.name = "authn" ∨ ext.name = "authn-mandatory" then
              (acc.1, .Mandatory)
            else if ext.name = "authn-opportunistic" then
              (acc.1, .Opportunistic)
            else if ext.name = "authn-disabled" then
              (acc.1, .Disabled)
            else acc
          else acc
        | none => acc)
      (none, .Disabled)

/-- Test of value.ends_with('/') on the last character. -/
def endsWithSlash (s : String) : Bool :=
  match s.data.getLast? with
  | some c => c = '/'
  | none => false

/-- Model of the while loop of try_add_http_route stripping every trailing
'/' from the matched value. -/
def stripTrailingSlashes (s : String) : String :=
  ⟨(s.data.reverse.dropWhile (fun c => c = '/')).reverse⟩

/-- Application of the URLRewrite replacePrefixMatch value to the proxy in
the PathPrefix arm of try_add_http_route: a '/' is appended when missing. -/
def applyReplacePfxMatch (proxy : ProxyDesc) (rpm : Option String) : ProxyDesc :=
  match rpm with
  | some prefixPath =>
    if endsWithSlash prefixPath then proxy.withReplacePfx prefixPath
    else proxy.withReplacePfx (prefixPath ++ "/")
  | none => proxy

/-- Model of the PathPrefix (or type-absent) arm of try_add_http_route: the
trailing-slash redirect insert, the URLRewrite application, and the two
proxy inserts for the prefix and its catch-all pattern. Uri parsing of the
redirect targets is abstracted away. -/
def pathPfxArm (output : RTable) (value : String) (proxy : ProxyDesc)
    (rpm : Option String) : RTable :=
  let step :=
    if ¬ endsWithSlash value then
      let terminated := value ++ "/"
      (tryInsertRoute output value (.TemporaryRedirect terminated), terminated)
    else
      let unterminated := stripTrailingSlashes value
      (tryInsertRoute output unterminated (.TemporaryRedirect value), value)
  let output := step.1
  let pfx := step.2
  let proxy := applyReplacePfxMatch proxy rpm
  let output := tryInsertRoute output pfx (.Proxy proxy)
  tryInsertRoute output (pfx ++ "{*path}") (.Proxy proxy)

/-- Model of the per-match body of try_add_http_route: scan the rule filters,
require a path value, build the proxy, and dispatch on the path type. -/
def processMatch (ruleFilters : Option (List RouteFilter)) (backendUri : Uri)
    (backendClass : BackendClass) (output : RTable) (rm : HTTPRouteMatch) :
    RTable :=
  let scanned := scanRuleFilters ruleFilters
  let urlRewrite := scanned.1
  let authDirective := scanned.2
  match rm.path with
  | none => output
  | some pm =>
    match pm.value with
    | none => output
    | some value =>
      let proxy :=
        ((ProxyDesc.fromBackendUri backendUri).withBackendClass
          backendClass).withAuthDirective authDirective
      match pm.type with
      | none | some .PathPrefix =>
        pathPfxArm output value proxy
          (urlRewrite.bind (fun rw => rw.path.bind (fun p => p.replacePfxMatch)))
      | some .Exact => tryInsertRoute output value (.Proxy proxy)
      | some .RegularExpression => output

/-- Protocol selection of try_add_http_route: https for port 443 or an
AuthlyMesh backend class, http otherwise. -/
def backendProtocol (port : Nat) (class_ : BackendClass) : String :=
  if port = 443 ∨ class_ = .AuthlyMesh then "https" else "http"

/-- Backend URI assembled by try_add_http_route from the format string
protocol://name:port. Uri::from_str is modelled structurally: the scheme and
the authority are the pieces of the format string (character-level validity
is abstracted away); the URI has no path component. -/
def buildBackendUri (protocol name : String) (port : Nat) : Uri :=
  ⟨some protocol, some (name ++ ":" ++ toString port), none⟩

/-- Model of the per-rule body of try_add_http_route: skip a rule with no
backend refs, pick the first backend ref (warning on several), skip a
backend ref with no port, compute the backend class (port 443 forces
AuthlyMesh), the protocol and the backend URI, then process each match. -/
def processRule (output : RTable) (rule : HTTPRule) : RTable :=
  match rule.backendRefs with
  | none => output
  | some [] => output
  | some (backendRef :: _) =>
    match backendRef.port with
    | none => output
    | some port =>
      let backendClass0 := backendFiltersClass backendRef.filters
      let backendClass := if port = 443 then .AuthlyMesh else backendClass0
      let protocol := backendProtocol port backendClass
      let backendUri := buildBackendUri protocol backendRef.name port
      match rule.ruleMatches with
      | none => output
      | some ms =>
        ms.foldl (processMatch rule.filters backendUri backendClass) output

/-- Model of try_add_http_route in k8s_routing.rs for one HTTPRoute spec:
every rule is processed in order against the routing table under
construction. -/
def tryAddHttpRoute (output : RTable) (spec : HTTPRouteSpec) : RTable :=
  match spec.rules with
  | none => output
  | some rules => rules.foldl processRule output

theorem getFirst_removeKey_self (hs : HeaderMap) (k : String) :
    getFirst (removeKey hs k) k = none := by
  induction hs with
  | nil => simp [getFirst, removeKey]
  | cons p t ih =>
    by_cases hk : p.1 = k
    · simpa [removeKey, hk] using ih
    · simp [getFirst, removeKey, hk, ih]

theorem getFirst_removeKey_ne (hs : HeaderMap) (k k' : String) (h : k ≠ k') :
    getFirst (removeKey hs k') k = getFirst hs k := by
  have hne : k' ≠ k := fun e => h e.symm
  induction hs with
  | nil => simp [removeKey]
  | cons p t ih =>
    by_cases hk : p.1 = k'
    · have hk2 : p.1 ≠ k := fun e => h (e ▸ hk)
      simp [getFirst, removeKey, hk, hk2, hne, ih]
    · by_cases hk2 : p.1 = k
      · simp [getFirst, removeKey, hk, hk2, h]
      · simp [getFirst, removeKey, hk, hk2, ih]

theorem getFirst_append_single (hs : HeaderMap) (k k' v : String) :
    getFirst (hs ++ [(k', v)]) k
      = ((getFirst hs k).orElse (fun _ => if k' = k then some v else none)) := by
  induction hs with
  | nil => simp [getFirst]
  | cons p t ih =>
    by_cases hk : p.1 = k
    · simp [getFirst, hk]
    · simp [getFirst, hk, ih]

theorem getFirst_insertHeader_self (hs : HeaderMap) (k v : String) :
    getFirst (insertHeader hs k v) k = some v := by
  simp [insertHeader, getFirst_append_single, getFirst_removeKey_self]

theorem getFirst_insertHeader_ne (hs : HeaderMap) (k k' v : String) (h : k ≠ k') :
    getFirst (insertHeader hs k' v) k = getFirst hs k := by
  rw [insertHeader, getFirst_append_single, getFirst_removeKey_ne _ _ _ h]
  have hne : k' ≠ k := fun e => h e.symm
  cases hg : getFirst hs k with
  | none => simp [hne]
  | some w => simp

theorem containsKey_removeKey_self (hs : HeaderMap) (k : String) :
    containsKey (removeKey hs k) k = false := by
  induction hs with
  | nil => simp [containsKey, removeKey]
  | cons p t ih =>
    by_cases hk : p.1 = k
    · simpa [removeKey, hk] using ih
    · simp [containsKey, removeKey, hk, ih]

theorem containsKey_removeKey_ne (hs : HeaderMap) (k k' : String) (h : k ≠ k') :
    containsKey (removeKey hs k') k = containsKey hs k := by
  have hne : k' ≠ k := fun e => h e.symm
  induction hs with
  | nil => simp [removeKey]
  | cons p t ih =>
    by_cases hk : p.1 = k'
    · have hk2 : p.1 ≠ k := fun e => h (e ▸ hk)
      simp [containsKey, removeKey, hk, hk2, hne, ih]
    · simp [containsKey, removeKey, hk, ih]

theorem containsKey_append_single (hs : HeaderMap) (k k' v : String) :
    containsKey (hs ++ [(k', v)]) k = (containsKey hs k || k' = k) := by
  induction hs with
  | nil => simp [containsKey]
  | cons p t ih => simp [containsKey, ih, Bool.or_assoc]

theorem containsKey_insertHeader_ne (hs : HeaderMap) (k k' v : String) (h : k ≠ k') :
    containsKey (insertHeader hs k' v) k = containsKey hs k := by
  have hne : k' ≠ k := fun e => h e.symm
  rw [insertHeader, containsKey_append_single,
    containsKey_removeKey_ne _ _ _ h]
  simp [hne]


/-- C1: for every auth directive, header map and optional identity client,
process_auth_directive returns NotAuthenticated exactly when either (a) the
directive is Mandatory and the client is absent, or the client is present but
no session cookie is found in the Cookie headers, or the exchange call fails;
or (b) the directive is Opportunistic, the client is present, a session
cookie is found, and the exchange call fails. In every other case it
returns ok (the second conjunct: outside the error condition the result is
a successful ok value, never any error). -/
theorem processAuthDirective_notAuthenticated_iff
    (d : AuthDirective) (hs : HeaderMap) (client : Option AuthlyClient) :
    (processAuthDirective d hs client = .error .NotAuthenticated ↔
      ((d = .Mandatory ∧
          (client = none
            ∨ ((∃ c, client = some c) ∧ jarGet hs "session-cookie" = none)
            ∨ (∃ c v, client = some c ∧ jarGet hs "session-cookie" = some v ∧
                exceptIsErr (c (valueTrimmed v)) = true)))
        ∨ (d = .Opportunistic ∧
            ∃ c v, client = some c ∧ jarGet hs "session-cookie" = some v ∧
              exceptIsErr (c (valueTrimmed v)) = true)))
    ∧ (¬ ((d = .Mandatory ∧
          (client = none
            ∨ ((∃ c, client = some c) ∧ jarGet hs "session-cookie" = none)
            ∨ (∃ c v, client = some c ∧ jarGet hs "session-cookie" = some v ∧
                exceptIsErr (c (valueTrimmed v)) = true)))
        ∨ (d = .Opportunistic ∧
            ∃ c v, client = some c ∧ jarGet hs "session-cookie" = some v ∧
              exceptIsErr (c (valueTrimmed v)) = true)) →
        ∃ hs', processAuthDirective d hs client = .ok hs') := by
  constructor
  · cases d with
    | Mandatory =>
      cases client with
      | none => simp [processAuthDirective]
      | some c =>
        cases hj : jarGet hs "session-cookie" with
        | none => simp [processAuthDirective, hj]
        | some v =>
          cases hx : c (valueTrimmed v) with
          | error e =>
            simp [processAuthDirective, hj, injectAccessToken, hx, exceptIsErr]
          | ok tok =>
            simp [processAuthDirective, hj, injectAccessToken, hx, exceptIsErr]
    | Opportunistic =>
      cases client with
      | none => simp [processAuthDirective]
      | some c =>
        cases hj : jarGet hs "session-cookie" with
        | none => simp [processAuthDirective, hj]
        | some v =>
          cases hx : c (valueTrimmed v) with
          | error e =>
            simp [processAuthDirective, hj, injectAccessToken, hx, exceptIsErr]
          | ok tok =>
            simp [processAuthDirective, hj, injectAccessToken, hx, exceptIsErr]
    | Disabled => cases client <;> simp [processAuthDirective]
  · intro hnp
    cases d with
    | Mandatory =>
      cases client with
      | none => exact absurd (Or.inl ⟨rfl, Or.inl rfl⟩) hnp
      | some c =>
        cases hj : jarGet hs "session-cookie" with
        | none =>
          exact absurd (Or.inl ⟨rfl, Or.inr (Or.inl ⟨⟨c, rfl⟩, hj⟩)⟩) hnp
        | some v =>
          cases hx : c (valueTrimmed v) with
          | error e =>
            exact absurd
              (Or.inl ⟨rfl, Or.inr (Or.inr
                ⟨c, v, rfl, hj, by simp [exceptIsErr, hx]⟩)⟩) hnp
          | ok tok =>
            exact ⟨insertHeader hs "authorization" ("Bearer: " ++ tok),
              by simp [processAuthDirective, hj, injectAccessToken, hx]⟩
    | Opportunistic =>
      cases client with
      | none => exact ⟨hs, by simp [processAuthDirective]⟩
      | some c =>
        cases hj : jarGet hs "session-cookie" with
        | none => exact ⟨hs, by simp [processAuthDirective, hj]⟩
        | some v =>
          cases hx : c (valueTrimmed v) with
          | error e =>
            exact absurd
              (Or.inr ⟨rfl, c, v, rfl, hj, by simp [exceptIsErr, hx]⟩) hnp
          | ok tok =>
            exact ⟨insertHeader hs "authorization" ("Bearer: " ++ tok),
              by simp [processAuthDirective, hj, injectAccessToken, hx]⟩
    | Disabled => exact ⟨hs, by cases client <;> simp [processAuthDirective]⟩

/-- Witness for processAuthDirective_notAuthenticated_iff: the Disabled
directive with a session cookie present and no client returns ok. -/
theorem processAuthDirective_notAuthenticated_iff_witness :
    ∃ hs', processAuthDirective .Disabled
        [("cookie", "session-cookie=abc")] none = .ok hs' :=
  (processAuthDirective_notAuthenticated_iff .Disabled
      [("cookie", "session-cookie=abc")] none).2
    (by rintro (⟨h, -⟩ | ⟨h, -⟩) <;> exact AuthDirective.noConfusion h)

/-- C5 (code bug): on a successful exchange the source formats the
Authorization value as the string Bearer-colon-space-token instead of the
specified Bearer-space-token. At the concrete input below (Mandatory
directive, client present, session cookie present, exchange returning the
token tok) the header set by process_auth_directive is Bearer: tok, which
differs from the Bearer tok the claim requires. -/
theorem processAuthDirective_bearer_colon_divergence :
    processAuthDirective .Mandatory [("cookie", "session-cookie=abc")]
        (some (fun _ => Except.ok "tok"))
      = .ok [("cookie", "session-cookie=abc"), ("authorization", "Bearer: tok")]
    ∧ getFirst [("cookie", "session-cookie=abc"), ("authorization", "Bearer: tok")]
        "authorization" = some "Bearer: tok"
    ∧ ("Bearer: tok" : String) ≠ "Bearer tok" := by
  exact ⟨rfl, by decide, by decide⟩

theorem splitQ_no_q (l : List Char) (h : ('?' : Char) ∉ l) :
    splitQ l = (l, none) := by
  induction l with
  | nil => simp [splitQ]
  | cons c cs ih =>
    have hc : c ≠ '?' := fun e => h (by simp [e])
    have hcs : ('?' : Char) ∉ cs := fun m => h (by simp [m])
    simp [splitQ, hc, ih hcs]

theorem splitQ_append (a b : List Char) (h : ('?' : Char) ∉ a) :
    splitQ (a ++ b) = (a ++ (splitQ b).1, (splitQ b).2) := by
  induction a with
  | nil => simp
  | cons c cs ih =>
    have hc : c ≠ '?' := fun e => h (by simp [e])
    have hcs : ('?' : Char) ∉ cs := fun m => h (by simp [m])
    simp [splitQ, hc, ih hcs]

theorem parsePathAndQuery_assemble (pfx : String) (q : Option String)
    (h : ('?' : Char) ∉ pfx.data) :
    parsePathAndQuery
        (pfx ++ (match q with | some qs => "?" ++ qs | none => ""))
      = some ⟨pfx, q⟩ := by
  cases q with
  | none =>
    simp only [parsePathAndQuery, String.data_append]
    rw [List.append_nil, splitQ_no_q pfx.data h]
    rfl
  | some qs =>
    simp only [parsePathAndQuery, String.data_append]
    rw [splitQ_append pfx.data (['?'] ++ qs.data) h]
    simp [splitQ]

/-- C2: for every original URI, target backend URI, optional matched capture
C and configured replacePrefix R (neither containing a '?'),
rewrite_proxied_uri returns a URI whose scheme and authority are the
backend's, whose path is R concatenated with C (empty when absent) and whose
query is the original query forwarded verbatim; when R is absent the
original path and query are kept unchanged. -/
theorem rewriteProxiedUri_spec (original target : Uri) (cap : Option String)
    (R : String)
    (hts : target.scheme.isSome = true) (hta : target.authority.isSome = true)
    (hR : ('?' : Char) ∉ R.data)
    (hC : ∀ c, cap = some c → ('?' : Char) ∉ c.data)
    (hpq : original.pathQuery.isSome = true) :
    rewriteProxiedUri original (some target) cap (some R)
      = .ok ⟨target.scheme, target.authority,
          some ⟨R ++ cap.getD "", original.pathQuery.bind PathQuery.query⟩⟩
    ∧ rewriteProxiedUri original (some target) cap none
      = .ok ⟨target.scheme, target.authority, original.pathQuery⟩ := by
  obtain ⟨ts, hts⟩ := Option.isSome_iff_exists.mp hts
  obtain ⟨ta, hta⟩ := Option.isSome_iff_exists.mp hta
  obtain ⟨pq0, hpq⟩ := Option.isSome_iff_exists.mp hpq
  constructor
  · cases cap with
    | none =>
      have hassemble := parsePathAndQuery_assemble R (pq0.query) hR
      simp only [rewriteProxiedUri, hpq, Option.some_bind, Option.getD_none]
      rw [show (R ++ ("" : String)) = R from String.append_empty R]
      rw [hassemble]
      simp [uriFromParts, hts, hta, hpq]
    | some c =>
      have hRc : ('?' : Char) ∉ (R ++ c).data := by
        rw [String.data_append]
        intro hmem
        rcases List.mem_append.mp hmem with h1 | h2
        · exact hR h1
        · exact hC c rfl h2
      have hassemble := parsePathAndQuery_assemble (R ++ c) (pq0.query) hRc
      simp only [rewriteProxiedUri, hpq, Option.some_bind, Option.getD_some]
      rw [hassemble]
      simp [uriFromParts, hts, hta, hpq]
  · simp [rewriteProxiedUri, uriFromParts, hts, hta, hpq]

/-- Witness for rewriteProxiedUri_spec at a concrete request. -/
theorem rewriteProxiedUri_spec_witness :
    rewriteProxiedUri
        ⟨some "http", some "example.com", some ⟨"/authly/api/x", some "q=1"⟩⟩
        (some ⟨some "https", some "authly:443", none⟩) (some "api/x") (some "/")
      = .ok ⟨some "https", some "authly:443", some ⟨"/api/x", some "q=1"⟩⟩
    ∧ rewriteProxiedUri
        ⟨some "http", some "example.com", some ⟨"/authly/api/x", some "q=1"⟩⟩
        (some ⟨some "https", some "authly:443", none⟩) (some "api/x") none
      = .ok ⟨some "https", some "authly:443",
          some ⟨"/authly/api/x", some "q=1"⟩⟩ :=
  rewriteProxiedUri_spec
    ⟨some "http", some "example.com", some ⟨"/authly/api/x", some "q=1"⟩⟩
    ⟨some "https", some "authly:443", none⟩ (some "api/x") "/"
    rfl rfl (by decide)
    (fun c hc => by injection hc with h; subst h; decide) rfl
/-- C8: the compression predicate accepts a response exactly when its
content type is not in the exempt list, the content type is not an image
type unless it is image/svg+xml or compress_images is enabled, and the known
content size is at least min_size (unknown size compresses). -/
theorem shouldCompress_iff (cfg : CompressionCfg) (r : CompressionResponse) :
    shouldCompress cfg r = true ↔
      (responseContentType r ∉ cfg.exemptContentTypes
        ∧ ((responseContentType r).startsWith "image/" = true →
            responseContentType r = "image/svg+xml" ∨ cfg.compressImages = true)
        ∧ (∀ s, responseContentSize r = some s → cfg.minSize ≤ s)) := by
  have hmem : cfg.exemptContentTypes.any (fun t => t == responseContentType r)
      = true ↔ responseContentType r ∈ cfg.exemptContentTypes := by
    constructor
    · intro h
      rcases List.any_eq_true.mp h with ⟨t, ht, he⟩
      exact (beq_iff_eq.mp he) ▸ ht
    · intro hm
      exact List.any_eq_true.mpr ⟨_, hm, beq_self_eq_true _⟩
  unfold shouldCompress
  by_cases h1 :
      cfg.exemptContentTypes.any (fun t => t == responseContentType r) = true
  · rw [if_pos h1]
    simp only [Bool.false_eq_true, false_iff]
    intro hrhs
    exact hrhs.1 (hmem.mp h1)
  · rw [if_neg h1]
    have h1' : responseContentType r ∉ cfg.exemptContentTypes :=
      fun hm => h1 (hmem.mpr hm)
    by_cases h2 : (responseContentType r ≠ "image/svg+xml"
        ∧ (responseContentType r).startsWith "image/" = true
        ∧ ¬ cfg.compressImages = true)
    · rw [if_pos h2]
      simp only [Bool.false_eq_true, false_iff]
      intro hrhs
      rcases hrhs.2.1 h2.2.1 with he | hc
      · exact h2.1 he
      · exact h2.2.2 hc
    · rw [if_neg h2]
      have himg : (responseContentType r).startsWith "image/" = true →
          responseContentType r = "image/svg+xml" ∨ cfg.compressImages = true := by
        intro hsw
        by_cases he : responseContentType r = "image/svg+xml"
        · exact Or.inl he
        · by_cases hc : cfg.compressImages = true
          · exact Or.inr hc
          · exact absurd ⟨he, hsw, hc⟩ h2
      cases hsz : responseContentSize r with
      | none =>
        constructor
        · intro _
          exact ⟨h1', himg, fun s hs => by cases hs⟩
        · intro _; rfl
      | some s =>
        show (if s < cfg.minSize then false else true) = true ↔ _
        by_cases hlt : s < cfg.minSize
        · rw [if_pos hlt]
          simp only [Bool.false_eq_true, false_iff]
          intro hrhs
          exact Nat.not_le.mpr hlt (hrhs.2.2 s rfl)
        · rw [if_neg hlt]
          constructor
          · intro _
            refine ⟨h1', himg, fun s' hs' => ?_⟩
            injection hs' with h
            exact h ▸ Nat.le_of_not_lt hlt
          · intro _; rfl

theorem getFirst_eq_none_of_not_containsKey (hs : HeaderMap) (k : String)
    (h : containsKey hs k = false) : getFirst hs k = none := by
  induction hs with
  | nil => simp [getFirst]
  | cons p t ih =>
    simp only [containsKey, Bool.or_eq_false_iff] at h
    have hk : p.1 ≠ k := by
      intro e
      rw [e] at h
      simp at h
    simp [getFirst, hk, ih h.2]

theorem getFirst_protoStage_ne (hs : HeaderMap) (k : String)
    (h : k ≠ "x-forwarded-proto") :
    getFirst (protoStage hs) k = getFirst hs k := by
  unfold protoStage
  by_cases hc : containsKey hs "x-forwarded-proto" = true
  · simp [hc]
  · simp [hc, getFirst_insertHeader_ne _ _ _ _ h]

theorem containsKey_protoStage_ne (hs : HeaderMap) (k : String)
    (h : k ≠ "x-forwarded-proto") :
    containsKey (protoStage hs) k = containsKey hs k := by
  unfold protoStage
  by_cases hc : containsKey hs "x-forwarded-proto" = true
  · simp [hc]
  · simp [hc, containsKey_insertHeader_ne _ _ _ _ h]

theorem getFirst_hostStage_ne (hp : Option (String × String)) (hs : HeaderMap)
    (k : String) (h : k ≠ "x-forwarded-host") :
    getFirst (hostStage hp hs) k = getFirst hs k := by
  unfold hostStage
  by_cases hc : containsKey hs "x-forwarded-host" = true
  · simp [hc]
  · cases hp with
    | none => simp [hc]
    | some q => simp [hc, getFirst_insertHeader_ne _ _ _ _ h]

theorem containsKey_hostStage_ne (hp : Option (String × String))
    (hs : HeaderMap) (k : String) (h : k ≠ "x-forwarded-host") :
    containsKey (hostStage hp hs) k = containsKey hs k := by
  unfold hostStage
  by_cases hc : containsKey hs "x-forwarded-host" = true
  · simp [hc]
  · cases hp with
    | none => simp [hc]
    | some q => simp [hc, containsKey_insertHeader_ne _ _ _ _ h]

theorem hostStage_present (hp : Option (String × String)) (hs : HeaderMap)
    (hc : containsKey hs "x-forwarded-host" = true) :
    hostStage hp hs = hs := by
  simp [hostStage, hc]

theorem hostStage_none_eq (hs : HeaderMap) : hostStage none hs = hs := by
  unfold hostStage
  by_cases hc : containsKey hs "x-forwarded-host" = true <;> simp [hc]

theorem getFirst_hostStage_insert (hs : HeaderMap) (h p : String)
    (hc : containsKey hs "x-forwarded-host" = false) :
    getFirst (hostStage (some (h, p)) hs) "x-forwarded-host" = some h := by
  simp [hostStage, hc, getFirst_insertHeader_self]

theorem getFirst_portStage_ne (hp : Option (String × String)) (hs : HeaderMap)
    (k : String) (h : k ≠ "x-forwarded-port") :
    getFirst (portStage hp hs) k = getFirst hs k := by
  unfold portStage
  by_cases hc : containsKey hs "x-forwarded-port" = true
  · simp [hc]
  · cases hp with
    | none => simp [hc]
    | some q => simp [hc, getFirst_insertHeader_ne _ _ _ _ h]

theorem containsKey_portStage_ne (hp : Option (String × String))
    (hs : HeaderMap) (k : String) (h : k ≠ "x-forwarded-port") :
    containsKey (portStage hp hs) k = containsKey hs k := by
  unfold portStage
  by_cases hc : containsKey hs "x-forwarded-port" = true
  · simp [hc]
  · cases hp with
    | none => simp [hc]
    | some q => simp [hc, containsKey_insertHeader_ne _ _ _ _ h]

theorem portStage_present (hp : Option (String × String)) (hs : HeaderMap)
    (hc : containsKey hs "x-forwarded-port" = true) :
    portStage hp hs = hs := by
  simp [portStage, hc]

theorem portStage_none_eq (hs : HeaderMap) : portStage none hs = hs := by
  unfold portStage
  by_cases hc : containsKey hs "x-forwarded-port" = true <;> simp [hc]

theorem getFirst_portStage_insert (hs : HeaderMap) (h p : String)
    (hc : containsKey hs "x-forwarded-port" = false) :
    getFirst (portStage (some (h, p)) hs) "x-forwarded-port" = some p := by
  simp [portStage, hc, getFirst_insertHeader_self]

theorem getFirst_pfxStage_ne (pfx : Option String) (hs : HeaderMap)
    (k : String) (h : k ≠ "x-forwarded-prefix") :
    getFirst (pfxStage pfx hs) k = getFirst hs k := by
  cases pfx with
  | none => simp [pfxStage]
  | some v => simp [pfxStage, getFirst_insertHeader_ne _ _ _ _ h]

theorem containsKey_pfxStage_ne (pfx : Option String) (hs : HeaderMap)
    (k : String) (h : k ≠ "x-forwarded-prefix") :
    containsKey (pfxStage pfx hs) k = containsKey hs k := by
  cases pfx with
  | none => simp [pfxStage]
  | some v => simp [pfxStage, containsKey_insertHeader_ne _ _ _ _ h]

/-- C6 (counterexample): with an inbound Host header example.com carrying a
host portion but no ':', set_proxy_headers leaves x-forwarded-host unset,
although the claim requires it to be set to the host portion whenever that
portion is present and the header was not already present. -/
theorem setProxyHeaders_host_no_colon_counterexample :
    getFirst [("host", "example.com")] "host" = some "example.com"
    ∧ containsKey [("host", "example.com")] "x-forwarded-host" = false
    ∧ getFirst (setProxyHeaders [("host", "example.com")] "/svc/xyz" "/xyz")
        "x-forwarded-host" = none := by
  decide

/-- C6 (amended): set_proxy_headers removes the inbound Host header; when
the Host header value contains a ':', and only then, x-forwarded-host and
x-forwarded-port are set (when not already present) to the parts before and
after the first ':'; a Host value without ':', or an absent Host header,
sets neither x-forwarded-host nor x-forwarded-port; already-present values
are left untouched. -/
theorem setProxyHeaders_spec (hs : HeaderMap) (op rp : String) :
    containsKey (setProxyHeaders hs op rp) "host" = false
    ∧ (∀ hv h p, containsKey hs "x-forwarded-host" = false →
        getFirst hs "host" = some hv → splitOnce hv ':' = some (h, p) →
        getFirst (setProxyHeaders hs op rp) "x-forwarded-host" = some h)
    ∧ (∀ hv h p, containsKey hs "x-forwarded-port" = false →
        getFirst hs "host" = some hv → splitOnce hv ':' = some (h, p) →
        getFirst (setProxyHeaders hs op rp) "x-forwarded-port" = some p)
    ∧ (∀ hv, containsKey hs "x-forwarded-host" = false →
        getFirst hs "host" = some hv → splitOnce hv ':' = none →
        getFirst (setProxyHeaders hs op rp) "x-forwarded-host" = none)
    ∧ (containsKey hs "x-forwarded-host" = true →
        getFirst (setProxyHeaders hs op rp) "x-forwarded-host"
          = getFirst hs "x-forwarded-host")
    ∧ (containsKey hs "x-forwarded-port" = true →
        getFirst (setProxyHeaders hs op rp) "x-forwarded-port"
          = getFirst hs "x-forwarded-port")
    ∧ (∀ hv, containsKey hs "x-forwarded-port" = false →
        getFirst hs "host" = some hv → splitOnce hv ':' = none →
        getFirst (setProxyHeaders hs op rp) "x-forwarded-port" = none)
    ∧ (containsKey hs "x-forwarded-host" = false →
        getFirst hs "host" = none →
        getFirst (setProxyHeaders hs op rp) "x-forwarded-host" = none)
    ∧ (containsKey hs "x-forwarded-port" = false →
        getFirst hs "host" = none →
        getFirst (setProxyHeaders hs op rp) "x-forwarded-port" = none) := by
  refine ⟨?_, ?_, ?_, ?_, ?_, ?_, ?_, ?_, ?_⟩
  · simp only [setProxyHeaders]
    rw [containsKey_pfxStage_ne _ _ _ (by decide),
      containsKey_portStage_ne _ _ _ (by decide),
      containsKey_hostStage_ne _ _ _ (by decide),
      containsKey_protoStage_ne _ _ (by decide),
      containsKey_removeKey_self]
  · intro hv h p hnf hhost hsplit
    simp only [setProxyHeaders]
    rw [hhost, Option.some_bind, hsplit]
    rw [getFirst_pfxStage_ne _ _ _ (by decide),
      getFirst_portStage_ne _ _ _ (by decide)]
    have hc : containsKey (protoStage (removeKey hs "host")) "x-forwarded-host"
        = false := by
      rw [containsKey_protoStage_ne _ _ (by decide),
        containsKey_removeKey_ne _ _ _ (by decide)]
      exact hnf
    exact getFirst_hostStage_insert _ h p hc
  · intro hv h p hnf hhost hsplit
    simp only [setProxyHeaders]
    rw [hhost, Option.some_bind, hsplit]
    rw [getFirst_pfxStage_ne _ _ _ (by decide)]
    have hc : containsKey
        (hostStage (some (h, p)) (protoStage (removeKey hs "host")))
        "x-forwarded-port" = false := by
      rw [containsKey_hostStage_ne _ _ _ (by decide),
        containsKey_protoStage_ne _ _ (by decide),
        containsKey_removeKey_ne _ _ _ (by decide)]
      exact hnf
    exact getFirst_portStage_insert _ h p hc
  · intro hv hnf hhost hsplit
    simp only [setProxyHeaders]
    rw [hhost, Option.some_bind, hsplit]
    rw [getFirst_pfxStage_ne _ _ _ (by decide), portStage_none_eq,
      hostStage_none_eq, getFirst_protoStage_ne _ _ (by decide),
      getFirst_removeKey_ne _ _ _ (by decide)]
    exact getFirst_eq_none_of_not_containsKey hs _ hnf
  · intro hpresent
    simp only [setProxyHeaders]
    have hc : containsKey (protoStage (removeKey hs "host")) "x-forwarded-host"
        = true := by
      rw [containsKey_protoStage_ne _ _ (by decide),
        containsKey_removeKey_ne _ _ _ (by decide)]
      exact hpresent
    rw [getFirst_pfxStage_ne _ _ _ (by decide),
      getFirst_portStage_ne _ _ _ (by decide),
      hostStage_present _ _ hc,
      getFirst_protoStage_ne _ _ (by decide),
      getFirst_removeKey_ne _ _ _ (by decide)]
  · intro hpresent
    simp only [setProxyHeaders]
    have hc : containsKey
        (hostStage ((getFirst hs "host").bind (fun h => splitOnce h ':'))
          (protoStage (removeKey hs "host"))) "x-forwarded-port" = true := by
      rw [containsKey_hostStage_ne _ _ _ (by decide),
        containsKey_protoStage_ne _ _ (by decide),
        containsKey_removeKey_ne _ _ _ (by decide)]
      exact hpresent
    rw [getFirst_pfxStage_ne _ _ _ (by decide),
      portStage_present _ _ hc,
      getFirst_hostStage_ne _ _ _ (by decide),
      getFirst_protoStage_ne _ _ (by decide),
      getFirst_removeKey_ne _ _ _ (by decide)]
  · intro hv hnf hhost hsplit
    simp only [setProxyHeaders]
    rw [hhost, Option.some_bind, hsplit]
    rw [getFirst_pfxStage_ne _ _ _ (by decide), portStage_none_eq,
      hostStage_none_eq, getFirst_protoStage_ne _ _ (by decide),
      getFirst_removeKey_ne _ _ _ (by decide)]
    exact getFirst_eq_none_of_not_containsKey hs _ hnf
  · intro hnf hhost
    simp only [setProxyHeaders]
    rw [hhost, Option.none_bind]
    rw [getFirst_pfxStage_ne _ _ _ (by decide), portStage_none_eq,
      hostStage_none_eq, getFirst_protoStage_ne _ _ (by decide),
      getFirst_removeKey_ne _ _ _ (by decide)]
    exact getFirst_eq_none_of_not_containsKey hs _ hnf
  · intro hnf hhost
    simp only [setProxyHeaders]
    rw [hhost, Option.none_bind]
    rw [getFirst_pfxStage_ne _ _ _ (by decide), portStage_none_eq,
      hostStage_none_eq, getFirst_protoStage_ne _ _ (by decide),
      getFirst_removeKey_ne _ _ _ (by decide)]
    exact getFirst_eq_none_of_not_containsKey hs _ hnf

/-- Witness for setProxyHeaders_spec at a concrete request with Host
example.com:8443, matching scenario S5 of the spec. -/
theorem setProxyHeaders_spec_witness :
    getFirst (setProxyHeaders [("host", "example.com:8443")] "/svc/xyz" "/xyz")
        "x-forwarded-host" = some "example.com"
    ∧ getFirst (setProxyHeaders [("host", "example.com:8443")] "/svc/xyz" "/xyz")
        "x-forwarded-port" = some "8443"
    ∧ containsKey (setProxyHeaders [("host", "example.com:8443")] "/svc/xyz" "/xyz")
        "host" = false :=
  ⟨(setProxyHeaders_spec [("host", "example.com:8443")] "/svc/xyz" "/xyz").2.1
      "example.com:8443" "example.com" "8443" (by decide) (by decide) (by decide),
   (setProxyHeaders_spec [("host", "example.com:8443")] "/svc/xyz" "/xyz").2.2.1
      "example.com:8443" "example.com" "8443" (by decide) (by decide) (by decide),
   (setProxyHeaders_spec [("host", "example.com:8443")] "/svc/xyz" "/xyz").1⟩

theorem wsTunnel_step_nonterminating (e : WsEvent) (es : List WsEvent)
    (h : wsTerminates e = false) :
    (wsTunnel (e :: es)).frontClose = (wsTunnel es).frontClose
    ∧ (wsTunnel (e :: es)).backClose = (wsTunnel es).backClose := by
  cases e with
  | fromFront m =>
    cases m with
    | none => simp [wsTerminates] at h
    | some r =>
      cases r with
      | error u => exact ⟨rfl, rfl⟩
      | ok fm =>
        cases fm with
        | text s => exact ⟨rfl, rfl⟩
        | binary b => exact ⟨rfl, rfl⟩
        | close f => simp [wsTerminates] at h
        | other => exact ⟨rfl, rfl⟩
  | fromBack m =>
    cases m with
    | none => simp [wsTerminates] at h
    | some r =>
      cases r with
      | error u => exact ⟨rfl, rfl⟩
      | ok bm =>
        cases bm with
        | text s => exact ⟨rfl, rfl⟩
        | binary b => exact ⟨rfl, rfl⟩
        | ping => exact ⟨rfl, rfl⟩
        | pong => exact ⟨rfl, rfl⟩
        | close c reason => simp [wsTerminates] at h
  
/-- C7 (counterexample): when the backend side delivers a close frame with
code 1001 and reason bye, the tunnel exits but the close issued on the
client side carries no frame at all (and the close sent back on the backend
side is the default 1000), so the frame's code and reason are not translated
to the other side as the claim states. -/
theorem wsTunnel_back_close_counterexample :
    (wsTunnel [.fromBack (some (.ok (.close 1001 "bye")))]).frontClose
      = some none
    ∧ (wsTunnel [.fromBack (some (.ok (.close 1001 "bye")))]).backClose
      = some (1000, none)
    ∧ (some none : Option (Option (Nat × String))) ≠ some (some (1001, "bye"))
    := ⟨rfl, rfl, by decide⟩

/-- C7 (amended): read errors and data messages never end the tunnel — only
end-of-stream or a close frame does; when the client side delivers a close
frame its code and reason are translated into the close issued on the
backend side and the tunnel exits; when the backend side delivers a close
frame the tunnel exits but both closes are defaults (no frame toward the
client, code 1000 toward the backend). -/
theorem wsTunnel_close_spec :
    (∀ es : List WsEvent, (∀ e ∈ es, wsTerminates e = false) →
        (wsTunnel es).frontClose = none ∧ (wsTunnel es).backClose = none)
    ∧ (∀ (pre rest : List WsEvent) (c : Nat) (reason : String),
        (∀ e ∈ pre, wsTerminates e = false) →
        (wsTunnel (pre ++
            .fromFront (some (.ok (.close (some (c, reason))))) :: rest)).frontClose
          = some none
        ∧ (wsTunnel (pre ++
            .fromFront (some (.ok (.close (some (c, reason))))) :: rest)).backClose
          = some (c, some reason))
    ∧ (∀ (pre rest : List WsEvent) (c : Nat) (reason : String),
        (∀ e ∈ pre, wsTerminates e = false) →
        (wsTunnel (pre ++
            .fromBack (some (.ok (.close c reason))) :: rest)).frontClose
          = some none
        ∧ (wsTunnel (pre ++
            .fromBack (some (.ok (.close c reason))) :: rest)).backClose
          = some (1000, none)) := by
  refine ⟨?_, ?_, ?_⟩
  · intro es h
    induction es with
    | nil => exact ⟨rfl, rfl⟩
    | cons e t ih =>
      have he : wsTerminates e = false := h e (List.mem_cons_self e t)
      have ht : ∀ x ∈ t, wsTerminates x = false :=
        fun x hx => h x (List.mem_cons_of_mem e hx)
      have step := wsTunnel_step_nonterminating e t he
      exact ⟨step.1.trans (ih ht).1, step.2.trans (ih ht).2⟩
  · intro pre rest c reason h
    induction pre with
    | nil => exact ⟨rfl, rfl⟩
    | cons e t ih =>
      have he : wsTerminates e = false := h e (List.mem_cons_self e t)
      have ht : ∀ x ∈ t, wsTerminates x = false :=
        fun x hx => h x (List.mem_cons_of_mem e hx)
      have step := wsTunnel_step_nonterminating e
        (t ++ .fromFront (some (.ok (.close (some (c, reason))))) :: rest) he
      exact ⟨step.1.trans (ih ht).1, step.2.trans (ih ht).2⟩
  · intro pre rest c reason h
    induction pre with
    | nil => exact ⟨rfl, rfl⟩
    | cons e t ih =>
      have he : wsTerminates e = false := h e (List.mem_cons_self e t)
      have ht : ∀ x ∈ t, wsTerminates x = false :=
        fun x hx => h x (List.mem_cons_of_mem e hx)
      have step := wsTunnel_step_nonterminating e
        (t ++ .fromBack (some (.ok (.close c reason))) :: rest) he
      exact ⟨step.1.trans (ih ht).1, step.2.trans (ih ht).2⟩

/-- Witness for wsTunnel_close_spec: after one front read error, a client
close frame with code 1001 and reason bye is translated to the backend
close. -/
theorem wsTunnel_close_spec_witness :
    (wsTunnel [.fromFront (some (.error ())),
        .fromFront (some (.ok (.close (some (1001, "bye")))))]).frontClose
      = some none
    ∧ (wsTunnel [.fromFront (some (.error ())),
        .fromFront (some (.ok (.close (some (1001, "bye")))))]).backClose
      = some (1001, some "bye") :=
  wsTunnel_close_spec.2.1 [.fromFront (some (.error ()))] [] 1001 "bye"
    (by intro e he; rw [List.mem_singleton.mp he]; rfl)

theorem lookupPat_append_single (T : RTable) (k k' : String) (r : Route) :
    RTable.lookupPat (T ++ [(k', r)]) k
      = ((RTable.lookupPat T k).orElse
          (fun _ => if k' = k then some r else none)) := by
  induction T with
  | nil => simp [RTable.lookupPat]
  | cons p t ih =>
    by_cases hk : p.1 = k
    · simp [RTable.lookupPat, hk]
    · simp [RTable.lookupPat, hk, ih]

theorem lookupPat_tryInsert_self (T : RTable) (k : String) (r : Route)
    (h : T.lookupPat k = none) :
    (tryInsertRoute T k r).lookupPat k = some r := by
  simp [tryInsertRoute, h, lookupPat_append_single]

theorem lookupPat_tryInsert_ne (T : RTable) (k k' : String) (r : Route)
    (h : k ≠ k') :
    (tryInsertRoute T k' r).lookupPat k = T.lookupPat k := by
  have hne : k' ≠ k := fun e => h e.symm
  unfold tryInsertRoute
  by_cases hocc : (T.lookupPat k').isSome = true
  · simp [hocc]
  · rw [if_neg hocc, lookupPat_append_single]
    cases hg : T.lookupPat k with
    | none => simp [hne]
    | some w => simp

theorem strLen_append (s t : String) : (s ++ t).length = s.length + t.length := by
  show (s ++ t).data.length = s.data.length + t.data.length
  rw [String.data_append, List.length_append]

theorem stripTrailingSlashes_length_lt (s : String)
    (h : endsWithSlash s = true) :
    (stripTrailingSlashes s).length < s.length := by
  unfold endsWithSlash at h
  cases hl : s.data.getLast? with
  | none => rw [hl] at h; simp at h
  | some c =>
    rw [hl] at h
    simp at h
    subst h
    have hrev : s.data.reverse.head? = some '/' := by
      rw [List.head?_reverse]; exact hl
    cases hr : s.data.reverse with
    | nil => rw [hr] at hrev; cases hrev
    | cons x t =>
      rw [hr] at hrev
      injection hrev with hx
      subst hx
      have h1 : (stripTrailingSlashes s).length
          = (List.dropWhile (fun c => decide (c = '/')) t).length := by
        show ((s.data.reverse.dropWhile (fun c => decide (c = '/'))).reverse).length = _
        rw [hr, List.length_reverse]
        simp [List.dropWhile]
      have h2 : (List.dropWhile (fun c => decide (c = '/')) t).length ≤ t.length :=
        (List.dropWhile_suffix _).length_le
      have h3 : s.length = t.length + 1 := by
        show s.data.length = t.length + 1
        rw [← List.length_reverse s.data, hr]
        rfl
      omega

/-- C3: for every PathPrefix (or type-absent) path match value V compiled by
try_add_http_route into a table where the involved patterns are still free:
if V does not end with '/', the pattern V maps to TemporaryRedirect(V+/) and
the prefix used is V+/; if V ends with one or more '/', the pattern obtained
by stripping all trailing '/' from V maps to TemporaryRedirect(V) and the
prefix used is V; in both cases the prefix pattern and the pattern
prefix{*path} both map to the Proxy descriptor. -/
theorem pathPfxArm_spec (T : RTable) (value : String) (proxy : ProxyDesc)
    (rpm : Option String) :
    (endsWithSlash value = false →
      T.lookupPat value = none →
      T.lookupPat (value ++ "/") = none →
      T.lookupPat (value ++ "/" ++ "{*path}") = none →
      ((pathPfxArm T value proxy rpm).lookupPat value
          = some (.TemporaryRedirect (value ++ "/"))
        ∧ (pathPfxArm T value proxy rpm).lookupPat (value ++ "/")
          = some (.Proxy (applyReplacePfxMatch proxy rpm))
        ∧ (pathPfxArm T value proxy rpm).lookupPat (value ++ "/" ++ "{*path}")
          = some (.Proxy (applyReplacePfxMatch proxy rpm))))
    ∧ (endsWithSlash value = true →
      T.lookupPat (stripTrailingSlashes value) = none →
      T.lookupPat value = none →
      T.lookupPat (value ++ "{*path}") = none →
      ((pathPfxArm T value proxy rpm).lookupPat (stripTrailingSlashes value)
          = some (.TemporaryRedirect value)
        ∧ (pathPfxArm T value proxy rpm).lookupPat value
          = some (.Proxy (applyReplacePfxMatch proxy rpm))
        ∧ (pathPfxArm T value proxy rpm).lookupPat (value ++ "{*path}")
          = some (.Proxy (applyReplacePfxMatch proxy rpm)))) := by
  have hslash : ("/" : String).length = 1 := rfl
  have hstar : ("{*path}" : String).length = 7 := rfl
  have l1 : (value ++ "/").length = value.length + 1 := by
    rw [strLen_append, hslash]
  have l2 : (value ++ "/" ++ "{*path}").length = value.length + 8 := by
    rw [strLen_append, l1, hstar]
  have l3 : (value ++ "{*path}").length = value.length + 7 := by
    rw [strLen_append, hstar]
  constructor
  · intro h h1 h2 h3
    have hne1 : value ≠ value ++ "/" := fun e => by
      have := congrArg String.length e
      rw [l1] at this
      omega
    have hne2 : value ≠ value ++ "/" ++ "{*path}" := fun e => by
      have := congrArg String.length e
      rw [l2] at this
      omega
    have hne3 : value ++ "/" ≠ value ++ "/" ++ "{*path}" := fun e => by
      have := congrArg String.length e
      rw [l1, l2] at this
      omega
    simp only [pathPfxArm, h, Bool.false_eq_true, not_false_iff, if_true]
    refine ⟨?_, ?_, ?_⟩
    · rw [lookupPat_tryInsert_ne _ _ _ _ hne2,
        lookupPat_tryInsert_ne _ _ _ _ hne1,
        lookupPat_tryInsert_self _ _ _ h1]
    · rw [lookupPat_tryInsert_ne _ _ _ _ hne3]
      rw [lookupPat_tryInsert_self]
      rw [lookupPat_tryInsert_ne _ _ _ _ (fun e => hne1 e.symm)]
      exact h2
    · rw [lookupPat_tryInsert_self]
      rw [lookupPat_tryInsert_ne _ _ _ _ (fun e => hne3 e.symm)]
      rw [lookupPat_tryInsert_ne _ _ _ _ (fun e => hne2 e.symm)]
      exact h3
  · intro h h1 h2 h3
    have hlt : (stripTrailingSlashes value).length < value.length :=
      stripTrailingSlashes_length_lt value h
    have hne1 : stripTrailingSlashes value ≠ value := fun e => by
      have := congrArg String.length e
      omega
    have hne2 : stripTrailingSlashes value ≠ value ++ "{*path}" := fun e => by
      have := congrArg String.length e
      rw [l3] at this
      omega
    have hne3 : value ≠ value ++ "{*path}" := fun e => by
      have := congrArg String.length e
      rw [l3] at this
      omega
    simp only [pathPfxArm, h, Bool.true_eq_false, not_true, if_neg,
      not_false_iff, if_false]
    refine ⟨?_, ?_, ?_⟩
    · rw [lookupPat_tryInsert_ne _ _ _ _ hne2,
        lookupPat_tryInsert_ne _ _ _ _ hne1,
        lookupPat_tryInsert_self _ _ _ h1]
    · rw [lookupPat_tryInsert_ne _ _ _ _ hne3]
      rw [lookupPat_tryInsert_self]
      rw [lookupPat_tryInsert_ne _ _ _ _ (fun e => hne1 e.symm)]
      exact h2
    · rw [lookupPat_tryInsert_self]
      rw [lookupPat_tryInsert_ne _ _ _ _ (fun e => hne3 e.symm)]
      rw [lookupPat_tryInsert_ne _ _ _ _ (fun e => hne2 e.symm)]
      exact h3

/-- Witness for pathPfxArm_spec on the empty table with the value /authly,
matching scenario S1 of the spec. -/
theorem pathPfxArm_spec_witness :
    (pathPfxArm [] "/authly"
        (ProxyDesc.fromBackendUri ⟨some "https", some "authly:443", none⟩)
        none).lookupPat "/authly"
      = some (.TemporaryRedirect "/authly/")
    ∧ (pathPfxArm [] "/authly"
        (ProxyDesc.fromBackendUri ⟨some "https", some "authly:443", none⟩)
        none).lookupPat "/authly/"
      = some (.Proxy
          (ProxyDesc.fromBackendUri ⟨some "https", some "authly:443", none⟩))
    ∧ (pathPfxArm [] "/authly"
        (ProxyDesc.fromBackendUri ⟨some "https", some "authly:443", none⟩)
        none).lookupPat "/authly/{*path}"
      = some (.Proxy
          (ProxyDesc.fromBackendUri ⟨some "https", some "authly:443", none⟩)) :=
  (pathPfxArm_spec [] "/authly"
    (ProxyDesc.fromBackendUri ⟨some "https", some "authly:443", none⟩)
    none).1 (by decide) rfl rfl rfl

theorem backendFilterStep_mesh (acc : BackendClass) (f : RouteFilter) :
    backendFilterStep acc f = .AuthlyMesh ↔
      (acc = .AuthlyMesh
        ∨ ∃ ext, f.extensionRef = some ext
            ∧ ext.group = "authly.id" ∧ ext.name = "mesh") := by
  unfold backendFilterStep
  cases hext : f.extensionRef with
  | none => simp
  | some ext =>
    by_cases hg : ext.group = "authly.id"
    · by_cases hn : ext.name = "mesh"
      · simp [hg, hn]
      · simp [hg, hn]
    · simp [hg]

theorem foldl_backendFilterStep_mesh (fs : List RouteFilter)
    (acc : BackendClass) :
    fs.foldl backendFilterStep acc = .AuthlyMesh ↔
      (acc = .AuthlyMesh
        ∨ ∃ f, f ∈ fs ∧ ∃ ext, f.extensionRef = some ext
            ∧ ext.group = "authly.id" ∧ ext.name = "mesh") := by
  induction fs generalizing acc with
  | nil => simp
  | cons f t ih =>
    rw [List.foldl_cons, ih (backendFilterStep acc f)]
    rw [backendFilterStep_mesh]
    constructor
    · rintro ((hacc | hf) | ⟨g, hg, hgext⟩)
      · exact Or.inl hacc
      · exact Or.inr ⟨f, List.mem_cons_self f t, hf⟩
      · exact Or.inr ⟨g, List.mem_cons_of_mem f hg, hgext⟩
    · rintro (hacc | ⟨g, hg, hgext⟩)
      · exact Or.inl (Or.inl hacc)
      · rcases List.mem_cons.mp hg with he | ht
        · exact Or.inl (Or.inr (he ▸ hgext))
        · exact Or.inr ⟨g, ht, hgext⟩

theorem backendFiltersClass_mesh_iff (filters : Option (List RouteFilter)) :
    backendFiltersClass filters = .AuthlyMesh ↔
      (∃ fs f ext, filters = some fs ∧ f ∈ fs ∧ f.extensionRef = some ext
        ∧ ext.group = "authly.id" ∧ ext.name = "mesh") := by
  cases filters with
  | none =>
    unfold backendFiltersClass
    simp
  | some fs =>
    unfold backendFiltersClass
    rw [foldl_backendFilterStep_mesh]
    constructor
    · rintro (hplain | ⟨f, hf, ext, hext, hg, hn⟩)
      · cases hplain
      · exact ⟨fs, f, ext, rfl, hf, hext, hg, hn⟩
    · rintro ⟨fs', f, ext, hfs, hf, hext, hg, hn⟩
      injection hfs with hfs
      subst hfs
      exact Or.inr ⟨f, hf, ext, hext, hg, hn⟩

/-- C4: for every compiled rule with a chosen backend reference (port and
filters), the class computed by try_add_http_route is AuthlyMesh with
protocol https exactly when the port is 443 or a filter extension with group
authly.id and name mesh is present; otherwise it is Plain with protocol
http; and the backend URI has that protocol as scheme and authority
name:port. -/
theorem backendClass_spec (port : Nat) (filters : Option (List RouteFilter))
    (name : String) :
    (((if port = 443 then BackendClass.AuthlyMesh
          else backendFiltersClass filters) = BackendClass.AuthlyMesh
        ∧ backendProtocol port
            (if port = 443 then BackendClass.AuthlyMesh
              else backendFiltersClass filters) = "https")
      ↔ (port = 443
          ∨ ∃ fs f ext, filters = some fs ∧ f ∈ fs
              ∧ f.extensionRef = some ext
              ∧ ext.group = "authly.id" ∧ ext.name = "mesh"))
    ∧ (¬(port = 443
          ∨ ∃ fs f ext, filters = some fs ∧ f ∈ fs
              ∧ f.extensionRef = some ext
              ∧ ext.group = "authly.id" ∧ ext.name = "mesh") →
        ((if port = 443 then BackendClass.AuthlyMesh
            else backendFiltersClass filters) = BackendClass.Plain
          ∧ backendProtocol port
              (if port = 443 then BackendClass.AuthlyMesh
                else backendFiltersClass filters) = "http"))
    ∧ (buildBackendUri
          (backendProtocol port
            (if port = 443 then BackendClass.AuthlyMesh
              else backendFiltersClass filters)) name port).scheme
        = some (backendProtocol port
            (if port = 443 then BackendClass.AuthlyMesh
              else backendFiltersClass filters))
    ∧ (buildBackendUri
          (backendProtocol port
            (if port = 443 then BackendClass.AuthlyMesh
              else backendFiltersClass filters)) name port).authority
        = some (name ++ ":" ++ toString port) := by
  have hmesh := backendFiltersClass_mesh_iff filters
  refine ⟨?_, ?_, rfl, rfl⟩
  · by_cases hp : port = 443
    · simp [hp, backendProtocol]
    · rw [if_neg hp]
      cases hcls : backendFiltersClass filters with
      | AuthlyMesh =>
        obtain ⟨fs, f, ext, hfs, hf, hext, hg, hn⟩ := hmesh.mp hcls
        simp only [backendProtocol, hp, false_or]
        simp
        exact ⟨fs, hfs, f, hf, ext, hext, hg, hn⟩
      | Plain =>
        have hcond : ¬ (∃ fs f ext, filters = some fs ∧ f ∈ fs
            ∧ f.extensionRef = some ext
            ∧ ext.group = "authly.id" ∧ ext.name = "mesh") := by
          intro hc
          rw [hmesh.mpr hc] at hcls
          cases hcls
        simp [backendProtocol, hp]
        intro fs hfs f hf ext hext hg hn
        exact hcond ⟨fs, f, ext, hfs, hf, hext, hg, hn⟩
  · intro hnot
    have hp : port ≠ 443 := fun e => hnot (Or.inl e)
    have hcond : ¬ (∃ fs f ext, filters = some fs ∧ f ∈ fs
        ∧ f.extensionRef = some ext
        ∧ ext.group = "authly.id" ∧ ext.name = "mesh") :=
      fun hc => hnot (Or.inr hc)
    rw [if_neg hp]
    cases hcls : backendFiltersClass filters with
    | AuthlyMesh => exact absurd (hmesh.mp hcls) hcond
    | Plain => simp [backendProtocol, hp]

/-- Witness for backendClass_spec at port 8080 with no filters: class Plain,
protocol http. -/
theorem backendClass_spec_witness :
    (if (8080 : Nat) = 443 then BackendClass.AuthlyMesh
        else backendFiltersClass none) = BackendClass.Plain
    ∧ backendProtocol 8080
        (if (8080 : Nat) = 443 then BackendClass.AuthlyMesh
          else backendFiltersClass none) = "http" :=
  (backendClass_spec 8080 none "svc").2.1
    (by rintro (h | ⟨fs, f, ext, hfs, -⟩)
        · exact absurd h (by decide)
        · cases hfs)

/-- C10: a rule whose first backend reference carries no port contributes no
route-table entries and no error: processRule leaves every table unchanged,
and the fold over any rule list simply skips the rule. -/
theorem processRule_no_port_skip (rule : HTTPRule) (br : BackendRef)
    (rest : List BackendRef)
    (h1 : rule.backendRefs = some (br :: rest)) (h2 : br.port = none) :
    (∀ output, processRule output rule = output)
    ∧ (∀ (output : RTable) (pre post : List HTTPRule),
        (pre ++ rule :: post).foldl processRule output
          = (pre ++ post).foldl processRule output) := by
  have hskip : ∀ output, processRule output rule = output := by
    intro output
    unfold processRule
    simp only [h1, h2]
  refine ⟨hskip, ?_⟩
  intro output pre post
  rw [List.foldl_append, List.foldl_cons, hskip, ← List.foldl_append]

/-- Witness for processRule_no_port_skip: a concrete rule whose single
backend ref has no port leaves the empty table unchanged and is skipped in a
fold. -/
theorem processRule_no_port_skip_witness :
    processRule [] ⟨none, none, some [⟨"svc", none, none⟩]⟩ = []
    ∧ ([] ++ (⟨none, none, some [⟨"svc", none, none⟩]⟩ : HTTPRule) :: []).foldl
          processRule ([] : RTable)
        = (([] : List HTTPRule) ++ []).foldl processRule ([] : RTable) :=
  ⟨(processRule_no_port_skip ⟨none, none, some [⟨"svc", none, none⟩]⟩
      ⟨"svc", none, none⟩ [] rfl rfl).1 [],
   (processRule_no_port_skip ⟨none, none, some [⟨"svc", none, none⟩]⟩
      ⟨"svc", none, none⟩ [] rfl rfl).2 [] [] []⟩
